import Mathlib

/-!
# Verification of the codex-git synchronization core

A shallow embedding of the `codex-git` crate (src/lib.rs, src/pull.rs):
the credential-retry protocol, the session dirty-state bookkeeping
(needs-commit / needs-push), the commit/push lifecycle, and the
fetch / merge engine copied from the git2 pull example.

The underlying git object-store engine (libgit2 via the `git2` crate) is an
external collaborator; its primitives (pathspec matching, merge analysis,
merge base, three-way tree merge, transport) enter the embedding as explicit
oracle parameters, while the crate's own control flow and state updates are
translated directly from the Rust source.
-/

deriving instance DecidableEq for Except

namespace CodexGit

/-- Error type of the crate (`CodexGitError` in src/lib.rs). Payload strings
stand for the wrapped error values. -/
inductive CodexGitError where
  | git (msg : String)
  | io (msg : String)
  | other (msg : String)
  | codexGit
  deriving Repr, DecidableEq

/-- `Result<T>` of the crate. -/
abbrev CResult (α : Type) := Except CodexGitError α

/-- `NullResult` of the crate. -/
abbrev NullResult := CResult Unit

/-- `SshKeys` (src/lib.rs:59-64). Source field names are `public` and
`private`; `private` is a Lean keyword, hence the `Key` suffix. -/
structure SshKeys where
  publicKey : String
  privateKey : String
  deriving Repr, DecidableEq

/-- `User` (src/lib.rs:68-71): a git user name and email. -/
structure User where
  name : String
  email : String
  deriving Repr, DecidableEq

/-! ## Credential Provider (`CodexRepoConfig::callbacks`, src/lib.rs:163-202)

The Rust code installs a credentials closure capturing a mutable counter
`try_count : i8` (initially 0) and the config's ssh keys. Per invocation,
libgit2 supplies `url`, `username` and the `allowed` method set; the closure
either attempts the in-memory key (when `allowed` contains `SSH_MEMORY`) or
delegates to the `git2_credentials` helper chain, incrementing the counter
and calling `std::panic::panic_any` once the counter exceeds `MAX_TRIES`. -/

/-- How one invocation of the credentials closure ends.

* `ok src` — the closure returned `Ok(cred)`, `src` says which branch made it;
* `err msg` — the closure returned `Err(e)`: libgit2 receives the error and
  fails the enclosing fetch/push operation in-band (the operation returns
  `Err`, the process keeps running);
* `panicked msg` — the closure called `std::panic::panic_any(msg)`: the
  unwind propagates out of the fetch/push call as a Rust panic rather than
  as an error return. -/
inductive CredOutcome where
  | ok (source : Bool)  -- `true` = in-memory key branch, `false` = helper chain
  | err (msg : String)
  | panicked (msg : String)
  deriving Repr, DecidableEq

/-- Whether the outcome is an in-band error return (`Err` handed to libgit2,
which then terminates the fetch/push operation but not the process). -/
def CredOutcome.isErr : CredOutcome → Bool
  | .err _ => true
  | _ => false

/-- Whether the outcome is a Rust panic (`std::panic::panic_any`). -/
def CredOutcome.isPanic : CredOutcome → Bool
  | .panicked _ => true
  | _ => false

/-- The per-invocation inputs that libgit2 and the helper chain supply:
whether `allowed` contains `CredentialType::SSH_MEMORY`, and what
`ch.try_next_credential` would return if consulted on this invocation. -/
structure CredInvocation where
  allowedSshMemory : Bool
  helperRes : Except String Unit
  deriving Repr, DecidableEq

/-- Observable result of one invocation of the credentials closure. -/
structure CredCallResult where
  outcome : CredOutcome
  /-- whether `ch.try_next_credential` was consulted on this invocation -/
  helperConsulted : Bool
  /-- whether the closure logged via `error!` on this invocation -/
  errorLogged : Bool
  /-- the captured `try_count` after this invocation -/
  tryCount : Int
  deriving Repr, DecidableEq

/-- `MAX_TRIES` (src/lib.rs:168). -/
def MAX_TRIES : Int := 5

/-- One invocation of the credentials closure (src/lib.rs:169-202).
`keys` and `memAttempt` model the captured `self.ssh_keys` and the
collaborator primitive `Cred::ssh_key_from_memory` applied to them;
`tryCount` is the captured counter value before the invocation. -/
def credentialsCallback (keys : SshKeys) (memAttempt : SshKeys → Except String Unit)
    (inv : CredInvocation) (tryCount : Int) : CredCallResult :=
  if inv.allowedSshMemory then
    -- src/lib.rs:170-193: attempt the in-memory key and return its result,
    -- logging on failure; the counter is untouched and the helper chain is
    -- never reached on this invocation.
    match memAttempt keys with
    | .error e =>
        { outcome := .err e, helperConsulted := false, errorLogged := true,
          tryCount := tryCount }
    | .ok _ =>
        { outcome := .ok true, helperConsulted := false, errorLogged := false,
          tryCount := tryCount }
  else
    -- src/lib.rs:195-201: bump the counter, abort via panic_any past the cap,
    -- otherwise delegate to the helper chain.
    let tc := tryCount + 1
    if MAX_TRIES < tc then
      { outcome := .panicked "too many ssh tries", helperConsulted := false,
        errorLogged := true, tryCount := tc }
    else
      match inv.helperRes with
      | .ok _ =>
          { outcome := .ok false, helperConsulted := true, errorLogged := false,
            tryCount := tc }
      | .error e =>
          { outcome := .err e, helperConsulted := true, errorLogged := false,
            tryCount := tc }

/-- Run the credentials closure over a sequence of invocations, threading the
captured counter. A panic unwinds, so no further invocation happens after a
`panicked` outcome. -/
def runCredentials (keys : SshKeys) (memAttempt : SshKeys → Except String Unit) :
    List CredInvocation → Int → List CredCallResult
  | [], _ => []
  | inv :: rest, tc =>
    let r := credentialsCallback keys memAttempt inv tc
    match r.outcome with
    | .panicked _ => [r]
    | _ => r :: runCredentials keys memAttempt rest r.tryCount

/-- Number of invocations in a run that consulted the helper chain. -/
def helperConsultations (rs : List CredCallResult) : Nat :=
  rs.countP (fun r => r.helperConsulted)

/-- Counter invariant: starting from counter value `t`, the helper chain is
consulted at most `(MAX_TRIES - t).toNat` more times. -/
theorem helperConsultations_le (keys : SshKeys) (memAttempt : SshKeys → Except String Unit)
    (invs : List CredInvocation) :
    ∀ t : Int, helperConsultations (runCredentials keys memAttempt invs t) ≤
      (MAX_TRIES - t).toNat := by
  induction invs with
  | nil => intro t; simp [runCredentials, helperConsultations]
  | cons inv rest ih =>
    intro t
    by_cases hmem : inv.allowedSshMemory
    · have hco : credentialsCallback keys memAttempt inv t =
        (match memAttempt keys with
          | .error e =>
              { outcome := .err e, helperConsulted := false, errorLogged := true,
                tryCount := t }
          | .ok _ =>
              { outcome := .ok true, helperConsulted := false, errorLogged := false,
                tryCount := t }) := by
        simp [credentialsCallback, hmem]
      match hm : memAttempt keys with
      | .error e =>
        simp only [runCredentials, hco, hm]
        simp only [helperConsultations, List.countP_cons] at ih ⊢
        simpa using ih t
      | .ok u =>
        simp only [runCredentials, hco, hm]
        simp only [helperConsultations, List.countP_cons] at ih ⊢
        simpa using ih t
    · by_cases hcap : MAX_TRIES < t + 1
      · have hco : credentialsCallback keys memAttempt inv t =
          { outcome := .panicked "too many ssh tries", helperConsulted := false,
            errorLogged := true, tryCount := t + 1 } := by
          simp [credentialsCallback, hmem, hcap]
        simp [runCredentials, hco, helperConsultations]
      · match hm : inv.helperRes with
        | .ok u =>
          have hco : credentialsCallback keys memAttempt inv t =
            { outcome := .ok false, helperConsulted := true, errorLogged := false,
              tryCount := t + 1 } := by
            simp [credentialsCallback, hmem, hcap, hm]
          simp only [runCredentials, hco]
          have h2 := ih (t + 1)
          simp only [helperConsultations, List.countP_cons] at h2 ⊢
          simp only [MAX_TRIES] at hcap h2 ⊢
          simp
          omega
        | .error e =>
          have hco : credentialsCallback keys memAttempt inv t =
            { outcome := .err e, helperConsulted := true, errorLogged := false,
              tryCount := t + 1 } := by
            simp [credentialsCallback, hmem, hcap, hm]
          simp only [runCredentials, hco]
          have h2 := ih (t + 1)
          simp only [helperConsultations, List.countP_cons] at h2 ⊢
          simp only [MAX_TRIES] at hcap h2 ⊢
          simp
          omega

/-- Structure of a run on the helper path: starting from counter `t` with at
least `6 - t` invocations none of which takes the in-memory branch, the run
consults the helper on every invocation until the counter reaches 6, where the
closure panics and the run ends. -/
theorem runCredentials_panics (keys : SshKeys) (memAttempt : SshKeys → Except String Unit)
    (invs : List CredInvocation) :
    ∀ t : Int, (∀ inv ∈ invs, inv.allowedSshMemory = false) →
      0 ≤ t → t ≤ 5 → 6 ≤ invs.length + t.toNat →
      ∃ rs, runCredentials keys memAttempt invs t =
          rs ++ [{ outcome := .panicked "too many ssh tries", helperConsulted := false,
                   errorLogged := true, tryCount := 6 }] ∧
        rs.length = (5 - t).toNat ∧ ∀ r ∈ rs, r.helperConsulted = true := by
  induction invs with
  | nil =>
    intro t _ h0 h5 hlen
    simp only [List.length_nil, Nat.zero_add] at hlen
    omega
  | cons inv rest ih =>
    intro t hall h0 h5 hlen
    have hmem : inv.allowedSshMemory = false := hall inv (by simp)
    by_cases hcap : MAX_TRIES < t + 1
    · have ht : t = 5 := by simp only [MAX_TRIES] at hcap; omega
      subst ht
      have hco : credentialsCallback keys memAttempt inv 5 =
          { outcome := .panicked "too many ssh tries", helperConsulted := false,
            errorLogged := true, tryCount := 6 } := by
        simp [credentialsCallback, hmem, MAX_TRIES]
      refine ⟨[], ?_, by simp, by simp⟩
      simp [runCredentials, hco]
    · have hcap5 : t + 1 ≤ 5 := by simp only [MAX_TRIES] at hcap; omega
      have hrest : ∀ i ∈ rest, i.allowedSshMemory = false := by
        intro i hi; exact hall i (by simp [hi])
      have hlen2 : 6 ≤ rest.length + (t + 1).toNat := by
        simp only [List.length_cons] at hlen; omega
      obtain ⟨rs, heq, hlen3, hmem3⟩ := ih (t + 1) hrest (by omega)
        (by simp only [MAX_TRIES] at hcap; omega) hlen2
      match hm : inv.helperRes with
      | .ok u =>
        have hco : credentialsCallback keys memAttempt inv t =
            { outcome := .ok false, helperConsulted := true, errorLogged := false,
              tryCount := t + 1 } := by
          simp [credentialsCallback, hmem, hcap, hm]
        refine ⟨{ outcome := .ok false, helperConsulted := true, errorLogged := false,
                  tryCount := t + 1 } :: rs, ?_, ?_, ?_⟩
        · simp [runCredentials, hco, heq]
        · simp only [List.length_cons, hlen3]; omega
        · intro r hr
          rcases List.mem_cons.mp hr with h | h
          · subst h; rfl
          · exact hmem3 r h
      | .error e =>
        have hco : credentialsCallback keys memAttempt inv t =
            { outcome := .err e, helperConsulted := true, errorLogged := false,
              tryCount := t + 1 } := by
          simp [credentialsCallback, hmem, hcap, hm]
        refine ⟨{ outcome := .err e, helperConsulted := true, errorLogged := false,
                  tryCount := t + 1 } :: rs, ?_, ?_, ?_⟩
        · simp [runCredentials, hco, heq]
        · simp only [List.length_cons, hlen3]; omega
        · intro r hr
          rcases List.mem_cons.mp hr with h | h
          · subst h; rfl
          · exact hmem3 r h

/-- C1 (amended): for every invocation sequence of the credentials closure in
which the in-memory key path is never taken, the helper-chain resolver is
consulted at most 5 times; once at least 6 invocations are requested, the run
consists of exactly 5 helper consultations followed by a terminal invocation
that calls `std::panic::panic_any("too many ssh tries")`, so credential
resolution never loops indefinitely. -/
theorem credential_retry_cap (keys : SshKeys) (memAttempt : SshKeys → Except String Unit)
    (invs : List CredInvocation)
    (hall : ∀ inv ∈ invs, inv.allowedSshMemory = false)
    (hlen : 6 ≤ invs.length) :
    helperConsultations (runCredentials keys memAttempt invs 0) ≤ 5 ∧
    ∃ rs, runCredentials keys memAttempt invs 0 =
        rs ++ [{ outcome := .panicked "too many ssh tries", helperConsulted := false,
                 errorLogged := true, tryCount := 6 }] ∧
      rs.length = 5 ∧ ∀ r ∈ rs, r.helperConsulted = true := by
  constructor
  · have h := helperConsultations_le keys memAttempt invs 0
    simpa [MAX_TRIES] using h
  · have h := runCredentials_panics keys memAttempt invs 0 hall (by omega) (by omega)
      (by simpa using hlen)
    simpa using h

/-- concrete invocation sequence for the C1 witness: six helper-path
invocations whose helper chain finds no credential -/
def wInvsC1 : List CredInvocation :=
  List.replicate 6 { allowedSshMemory := false, helperRes := .error "no credential" }

/-- memory-attempt oracle that always succeeds (never consulted on the helper
path) -/
def wMemAttemptOk : SshKeys → Except String Unit := fun _ => .ok ()

theorem credential_retry_cap_witness :
    (∀ inv ∈ wInvsC1, inv.allowedSshMemory = false) ∧ 6 ≤ wInvsC1.length ∧
    (helperConsultations (runCredentials ⟨"", ""⟩ wMemAttemptOk wInvsC1 0) ≤ 5 ∧
     ∃ rs, runCredentials ⟨"", ""⟩ wMemAttemptOk wInvsC1 0 =
         rs ++ [{ outcome := .panicked "too many ssh tries", helperConsulted := false,
                  errorLogged := true, tryCount := 6 }] ∧
       rs.length = 5 ∧ ∀ r ∈ rs, r.helperConsulted = true) :=
  ⟨by decide, by decide,
   credential_retry_cap ⟨"", ""⟩ wMemAttemptOk wInvsC1 (by decide) (by decide)⟩

/-- C1 counterexample: in a concrete run of six helper-path invocations with
invalid credentials, the terminal (6th) invocation does not end with an
in-band fatal authentication error handed back to libgit2 (which would
terminate the fetch/push operation while the process keeps running):
`isErr` is `false`. Instead the closure panics via
`std::panic::panic_any("too many ssh tries")` (`isPanic` is `true`), an
unwind that aborts the calling thread — and, uncaught, the process — rather
than failing the operation in-band as the claim states. -/
theorem credential_sixth_attempt_panics_cex :
    ((runCredentials ⟨"pub", "priv"⟩ wMemAttemptOk
        (List.replicate 6 { allowedSshMemory := false, helperRes := .error "auth failed" })
        0).getLast?).map
      (fun r => (r.outcome, r.outcome.isErr, r.outcome.isPanic)) =
      some (.panicked "too many ssh tries", false, true) := by
  decide

/-- C7: whenever the allowed-method set contains `SSH_MEMORY` (and in-memory
key material is configured), the closure attempts the in-memory key
immediately — the outcome is exactly the result of `Cred::ssh_key_from_memory`
on the configured keys — and on failure it records the error (via `error!`)
and returns it without falling through to the helper chain: the helper is not
consulted and the retry counter is untouched. -/
theorem in_memory_key_authoritative (keys : SshKeys)
    (memAttempt : SshKeys → Except String Unit) (inv : CredInvocation) (tc : Int)
    (hA : inv.allowedSshMemory = true) (_hK : keys.privateKey ≠ "") :
    (credentialsCallback keys memAttempt inv tc).helperConsulted = false ∧
    (credentialsCallback keys memAttempt inv tc).tryCount = tc ∧
    (∀ e, memAttempt keys = .error e →
      (credentialsCallback keys memAttempt inv tc).outcome = .err e ∧
      (credentialsCallback keys memAttempt inv tc).errorLogged = true) ∧
    (∀ u, memAttempt keys = .ok u →
      (credentialsCallback keys memAttempt inv tc).outcome = .ok true) := by
  match hm : memAttempt keys with
  | .error e => refine ⟨?_, ?_, ?_, ?_⟩ <;> simp [credentialsCallback, hA, hm]
  | .ok u => refine ⟨?_, ?_, ?_, ?_⟩ <;> simp [credentialsCallback, hA, hm]

/-- memory-attempt oracle that always fails, for the C7 witness -/
def wMemAttemptBad : SshKeys → Except String Unit := fun _ => .error "bad key"

/-- concrete invocation for the C7 witness: `SSH_MEMORY` allowed -/
def wInvMem : CredInvocation := { allowedSshMemory := true, helperRes := .ok () }

theorem in_memory_key_authoritative_witness :
    wInvMem.allowedSshMemory = true ∧ (SshKeys.mk "pk" "sk").privateKey ≠ "" ∧
    ((credentialsCallback ⟨"pk", "sk"⟩ wMemAttemptBad wInvMem 0).helperConsulted = false ∧
     (credentialsCallback ⟨"pk", "sk"⟩ wMemAttemptBad wInvMem 0).tryCount = 0 ∧
     (∀ e, wMemAttemptBad ⟨"pk", "sk"⟩ = .error e →
       (credentialsCallback ⟨"pk", "sk"⟩ wMemAttemptBad wInvMem 0).outcome = .err e ∧
       (credentialsCallback ⟨"pk", "sk"⟩ wMemAttemptBad wInvMem 0).errorLogged = true) ∧
     (∀ u, wMemAttemptBad ⟨"pk", "sk"⟩ = .ok u →
       (credentialsCallback ⟨"pk", "sk"⟩ wMemAttemptBad wInvMem 0).outcome = .ok true)) :=
  ⟨rfl, by decide,
   in_memory_key_authoritative ⟨"pk", "sk"⟩ wMemAttemptBad wInvMem 0 rfl (by decide)⟩

/-! ## Git object model

The collaborator engine's repository state, at the granularity the crate's
code observes: an object store of commits, branch references, a symbolic
HEAD, the (cached, in-memory) index, the working tree, and FETCH_HEAD.
Object ids are allocated sequentially by `nextOid`. -/

/-- A tree / index: an ordered association of paths to blob contents. -/
abbrev Tree := List (String × String)

/-- A commit object. -/
structure GitCommit where
  parents : List Nat
  tree : Tree
  authorName : String
  authorEmail : String
  message : String
  deriving Repr, DecidableEq

/-- State of one open local repository (the `git2::Repository` handle). -/
structure Repo where
  /-- object store: oid ↦ commit -/
  commits : List (Nat × GitCommit)
  /-- branch references: full refname (e.g. "refs/heads/main") ↦ oid -/
  branches : List (String × Nat)
  /-- the refname HEAD points at symbolically -/
  head : String
  /-- the index (staged entries); `Repository::index` returns this cached
  in-memory index, so modifications persist across calls -/
  index : Tree
  workTree : Tree
  fetchHead : Option Nat
  /-- next object id to allocate -/
  nextOid : Nat
  deriving Repr, DecidableEq

/-- Look a branch reference up (`Repository::find_reference` on a branch). -/
def Repo.findBranch (r : Repo) (name : String) : Option Nat :=
  (r.branches.find? (fun b => b.1 == name)).map (fun b => b.2)

/-- Create or move a branch reference (`Reference::set_target` /
`Repository::reference`). -/
def Repo.setBranch (r : Repo) (name : String) (oid : Nat) : Repo :=
  if r.branches.any (fun b => b.1 == name) then
    { r with branches := r.branches.map (fun b => if b.1 == name then (name, oid) else b) }
  else
    { r with branches := r.branches ++ [(name, oid)] }

/-- Look a commit up in the object store (`Repository::find_commit`). -/
def Repo.findCommit (r : Repo) (oid : Nat) : Option GitCommit :=
  (r.commits.find? (fun c => c.1 == oid)).map (fun c => c.2)

/-- The commit id HEAD resolves to (`repo.head()?.resolve()?.peel(Commit)`);
`none` when the branch HEAD points at is unborn, in which case the git2 call
fails. -/
def Repo.headCommitId (r : Repo) : Option Nat := r.findBranch r.head

/-- `Repository::commit` (the collaborator primitive): store a new commit
object and, when `update_ref` is `Some("HEAD")`, advance the branch HEAD
points at to the new commit. Returns the new oid. -/
def Repo.createCommit (r : Repo) (updateHead : Bool) (author : User)
    (message : String) (tree : Tree) (parents : List Nat) : Repo × Nat :=
  let oid := r.nextOid
  let c : GitCommit :=
    { parents := parents
      tree := tree
      authorName := author.name
      authorEmail := author.email
      message := message }
  let r1 : Repo := { r with commits := r.commits ++ [(oid, c)], nextOid := oid + 1 }
  (if updateHead then r1.setBranch r1.head oid else r1, oid)

/-- `Repository::checkout_head`: reset the working tree to the tree of the
commit HEAD resolves to; fails if HEAD is unborn or dangling. -/
def Repo.checkout_head (r : Repo) : Repo × NullResult :=
  match r.headCommitId with
  | none => (r, .error (.git "unborn HEAD"))
  | some cid =>
    match r.findCommit cid with
    | none => (r, .error (.git "missing commit"))
    | some c => ({ r with workTree := c.tree }, .ok ())

/-- Insert or replace one `(path, content)` entry of a tree/index
(`Index::add_path` / `Index::add_all` on a single matched file). -/
def upsert (t : Tree) (path content : String) : Tree :=
  if t.any (fun e => e.1 == path) then
    t.map (fun e => if e.1 == path then (path, content) else e)
  else
    t ++ [(path, content)]

/-- Stage a list of worktree entries into an index, in order. -/
def stageAll (ix : Tree) (es : List (String × String)) : Tree :=
  es.foldl (fun acc e => upsert acc e.1 e.2) ix

/-! ## Repository Session (`CodexRepository`, src/lib.rs:327-598) -/

/-- `CodexRepoConfig` (src/lib.rs:83-104), the fields the session logic
reads. `path` and `verbose` are omitted: they only affect disk placement and
logging. -/
structure CodexRepoConfig where
  user : User
  remote_url : String
  auto_add : List String
  ssh_keys : SshKeys
  deriving Repr, DecidableEq

/-- `CodexRepository` (src/lib.rs:327-338): the session façade. -/
structure CodexRepository where
  repo : Repo
  config : CodexRepoConfig
  needs_commit : Bool
  needs_push : Bool
  /-- paths recorded by `add` for commit-message composition -/
  added : List String
  deriving Repr, DecidableEq

/-- `CodexRepository::new` (src/lib.rs:374-382). -/
def CodexRepository.new (repo : Repo) (config : CodexRepoConfig) : CodexRepository :=
  { repo := repo, config := config, needs_commit := false, needs_push := false,
    added := [] }

/-- `CodexRepository::add` (src/lib.rs:560-566): stage `path` in the index
(`Index::add_path` fails when the file does not exist in the worktree, and
the `?` propagates before any session field changes), set `needs_commit`,
and append `path` to the recorded list. -/
def CodexRepository.add (s : CodexRepository) (path : String) :
    CodexRepository × NullResult :=
  match s.repo.workTree.find? (fun e => e.1 == path) with
  | none => (s, .error (.git "file not found"))
  | some entry =>
    ({ s with
        repo := { s.repo with index := upsert s.repo.index path entry.2 }
        needs_commit := true
        added := s.added ++ [path] }, .ok ())

/-- Rust's `format!("{:?}", path)` on a `Path`: the path in quotes. The
`add_all` progress callback records matched paths in this form
(src/lib.rs:490). -/
def rustDebugPath (p : String) : String := "\"" ++ p ++ "\""

/-- `CodexRepository::commit` (src/lib.rs:477-519). `specMatches spec path`
is the collaborator's pathspec matcher used by `Index::add_all`: the commit
stages every worktree entry matched by some `auto_add` pattern (collecting
the matched paths via the progress callback), writes the index as a tree,
resolves `our_commit` (the commit HEAD points at — an error on an unborn
branch, propagated by `?` after the index was already written), writes a
commit with that single parent via `write_commit`, clears `added` and
`needs_commit`, and sets `needs_push`. -/
def CodexRepository.commit (specMatches : String → String → Bool)
    (s : CodexRepository) : CodexRepository × NullResult :=
  if s.needs_commit = false then
    (s, .ok ())
  else
    let matched := s.repo.workTree.filter
      (fun e => s.config.auto_add.any (fun spec => specMatches spec e.1))
    let paths := matched.map (fun e => rustDebugPath e.1)
    let index1 := stageAll s.repo.index matched
    let repo1 := { s.repo with index := index1 }
    let tree := index1
    match repo1.headCommitId with
    | none =>
      -- `our_commit` fails: `anyhow!("no commit")`, propagated; the dirty
      -- flags are not touched (they are only assigned after `write_commit`).
      ({ s with repo := repo1 }, .error (.other "no commit"))
    | some tip =>
      let msg := "commit changes " ++ String.intercalate " " paths ++ " "
        ++ String.intercalate " " s.added
      -- `write_commit` (src/lib.rs:521-542): parents nonempty, so
      -- `update_ref = Some("HEAD")` and the branch pointer advances.
      let repo2 := (repo1.createCommit true s.config.user msg tree [tip]).1
      ({ s with
          repo := repo2
          added := []
          needs_commit := false
          needs_push := true }, .ok ())

/-- `CodexRepository::push` (src/lib.rs:568-597): no-op unless `needs_push`;
otherwise connect and push refspec `refs/heads/main:refs/heads/main`
(with a leading `+` when `force`; the branch name is the hardcoded "main",
src/lib.rs:588-592). `pushOk` is the transport oracle, deciding success of
the push of a given refspec; on success `needs_push` is cleared, on failure
the error propagates with the flags unchanged. -/
def CodexRepository.push (pushOk : String → Bool) (s : CodexRepository) (force : Bool) :
    CodexRepository × NullResult :=
  if s.needs_push = false then
    (s, .ok ())
  else
    let forceMarker := if force then "+" else ""
    let refspec := forceMarker ++ "refs/heads/" ++ "main" ++ ":refs/heads/" ++ "main"
    if pushOk refspec then
      ({ s with needs_push := false }, .ok ())
    else
      (s, .error (.git "push failed"))

/-- `CodexRepository::commit_and_push` (src/lib.rs:457-475): `commit()?`
then `push(false)?` — the `?` on commit means push is not reached when
commit fails. -/
def CodexRepository.commit_and_push (specMatches : String → String → Bool)
    (pushOk : String → Bool) (s : CodexRepository) : CodexRepository × NullResult :=
  match s.commit specMatches with
  | (s1, .error e) => (s1, .error e)
  | (s1, .ok _) => s1.push pushOk false

/-- How `Drop::drop` ends: normally, or by `panic!("drop error")`. -/
inductive DropOutcome where
  | normal
  | panicked (msg : String)
  deriving Repr, DecidableEq

/-- Observable trace of session teardown. -/
structure TeardownTrace where
  /-- number of calls to `commit()` during teardown -/
  commitAttempts : Nat
  /-- number of calls to `push(false)` during teardown -/
  pushAttempts : Nat
  outcome : DropOutcome
  final : CodexRepository
  deriving Repr, DecidableEq

/-- `impl Drop for CodexRepository` (src/lib.rs:357-366): one call to
`commit_and_push`; on error, `error!` then `panic!("drop error")`. The
attempt counters record that `commit_and_push` calls `commit` once and —
only if commit succeeded — `push(false)` once. -/
def CodexRepository.drop (specMatches : String → String → Bool) (pushOk : String → Bool)
    (s : CodexRepository) : TeardownTrace :=
  match s.commit specMatches with
  | (s1, .error _) =>
    { commitAttempts := 1, pushAttempts := 0, outcome := .panicked "drop error",
      final := s1 }
  | (s1, .ok _) =>
    match s1.push pushOk false with
    | (s2, .error _) =>
      { commitAttempts := 1, pushAttempts := 1, outcome := .panicked "drop error",
        final := s2 }
    | (s2, .ok _) =>
      { commitAttempts := 1, pushAttempts := 1, outcome := .normal, final := s2 }

/-! ### Helper lemmas on the index / reference structures -/

theorem upsert_eq_pos (t : Tree) (p c : String)
    (h : t.any (fun e => e.1 == p) = true) :
    upsert t p c = t.map (fun e => if e.1 == p then (p, c) else e) := by
  simp [upsert, h]

theorem upsert_eq_neg (t : Tree) (p c : String)
    (h : t.any (fun e => e.1 == p) = false) :
    upsert t p c = t ++ [(p, c)] := by
  simp [upsert, h]

theorem keys_upsert_self (t : Tree) (p c : String) :
    p ∈ (upsert t p c).map Prod.fst := by
  cases h : t.any (fun e => e.1 == p) with
  | false =>
    rw [upsert_eq_neg t p c h]
    simp
  | true =>
    rw [upsert_eq_pos t p c h]
    obtain ⟨e, he, hep⟩ := List.any_eq_true.mp h
    apply List.mem_map.mpr
    refine ⟨(p, c), ?_, rfl⟩
    apply List.mem_map.mpr
    exact ⟨e, he, by simp [hep]⟩

theorem keys_upsert_super (t : Tree) (p c q : String)
    (hq : q ∈ t.map Prod.fst) : q ∈ (upsert t p c).map Prod.fst := by
  cases h : t.any (fun e => e.1 == p) with
  | false =>
    rw [upsert_eq_neg t p c h]
    rw [List.map_append]
    exact List.mem_append_left _ hq
  | true =>
    rw [upsert_eq_pos t p c h]
    obtain ⟨e, he, rfl⟩ := List.mem_map.mp hq
    apply List.mem_map.mpr
    refine ⟨if e.1 == p then (p, c) else e, List.mem_map_of_mem _ he, ?_⟩
    by_cases hc : (e.1 == p) = true
    · simp only [hc, if_true]
      exact (eq_of_beq hc).symm
    · simp [hc]

theorem keys_stageAll_super (es : List (String × String)) :
    ∀ (ix : Tree) (q : String), q ∈ ix.map Prod.fst →
      q ∈ (stageAll ix es).map Prod.fst := by
  induction es with
  | nil => intro ix q hq; simpa [stageAll] using hq
  | cons e es ih =>
    intro ix q hq
    have h1 : q ∈ (upsert ix e.1 e.2).map Prod.fst := keys_upsert_super ix e.1 e.2 q hq
    simpa [stageAll] using ih (upsert ix e.1 e.2) q h1

theorem keys_stageAll_of_mem (es : List (String × String)) :
    ∀ (ix : Tree) (e : String × String), e ∈ es →
      e.1 ∈ (stageAll ix es).map Prod.fst := by
  induction es with
  | nil => intro ix e he; simp at he
  | cons e0 es ih =>
    intro ix e he
    rcases List.mem_cons.mp he with h | h
    · subst h
      have h1 : e.1 ∈ (upsert ix e.1 e.2).map Prod.fst := keys_upsert_self ix e.1 e.2
      simpa [stageAll] using keys_stageAll_super es (upsert ix e.1 e.2) e.1 h1
    · simpa [stageAll] using ih (upsert ix e0.1 e0.2) e h

theorem mem_upsert_key_eq (t : Tree) (p c : String) (e : String × String)
    (he : e ∈ upsert t p c) (hk : e.1 = p) : e = (p, c) := by
  cases h : t.any (fun x => x.1 == p) with
  | true =>
    rw [upsert_eq_pos t p c h] at he
    obtain ⟨e0, _, rfl⟩ := List.mem_map.mp he
    by_cases hc : (e0.1 == p) = true
    · simp [hc]
    · exfalso
      simp only [hc, Bool.false_eq_true, if_false] at hk
      exact hc (by simp [hk])
  | false =>
    rw [upsert_eq_neg t p c h] at he
    rcases List.mem_append.mp he with h1 | h1
    · exfalso
      have hb : (e.1 == p) = true := by simp [hk]
      have : t.any (fun x => x.1 == p) = true := List.any_eq_true.mpr ⟨e, h1, hb⟩
      rw [h] at this
      exact Bool.false_ne_true this
    · simpa using h1

theorem upsert_any_self (t : Tree) (p c : String) :
    (upsert t p c).any (fun e => e.1 == p) = true := by
  obtain ⟨q, hq, hfst⟩ := List.mem_map.mp (keys_upsert_self t p c)
  exact List.any_eq_true.mpr ⟨q, hq, by simp [hfst]⟩

/-- Staging the same `(path, content)` twice equals staging it once. -/
theorem upsert_idem (t : Tree) (p c : String) :
    upsert (upsert t p c) p c = upsert t p c := by
  rw [upsert_eq_pos (upsert t p c) p c (upsert_any_self t p c)]
  have hfix : ∀ e ∈ upsert t p c,
      (if e.1 == p then (p, c) else e) = e := by
    intro e he
    by_cases hc : (e.1 == p) = true
    · simp only [hc, if_true]
      exact (mem_upsert_key_eq t p c e he (eq_of_beq hc)).symm
    · simp [hc]
  calc (upsert t p c).map (fun e => if e.1 == p then (p, c) else e)
      = (upsert t p c).map id := List.map_congr_left hfix
    _ = upsert t p c := List.map_id _

theorem find?_upd_map {α : Type} (bs : List (String × α)) (n : String) (v : α)
    (h : bs.any (fun b => b.1 == n) = true) :
    ((bs.map (fun b => if b.1 == n then (n, v) else b)).find?
        (fun b => b.1 == n)).map (fun b => b.2) = some v := by
  induction bs with
  | nil => simp at h
  | cons b bs ih =>
    by_cases hb : b.1 == n
    · simp [hb, List.find?]
    · have h2 : bs.any (fun x => x.1 == n) = true := by
        simpa [List.any_cons, hb] using h
      simpa [hb, List.find?] using ih h2

theorem find?_append_single {α : Type} (bs : List (String × α)) (n : String) (v : α)
    (h : bs.any (fun b => b.1 == n) = false) :
    ((bs ++ [(n, v)]).find? (fun b => b.1 == n)).map (fun b => b.2) = some v := by
  induction bs with
  | nil => simp [List.find?]
  | cons b bs ih =>
    have hb : (b.1 == n) = false := by
      by_contra hc
      simp only [List.any_cons, Bool.or_eq_false_iff] at h
      exact hc h.1
    have h2 : bs.any (fun x => x.1 == n) = false := by
      simp only [List.any_cons, Bool.or_eq_false_iff] at h
      exact h.2
    simpa [hb, List.find?] using ih h2

theorem setBranch_branches (r : Repo) (n : String) (oid : Nat) :
    (r.setBranch n oid).branches =
      if r.branches.any (fun b => b.1 == n) = true then
        r.branches.map (fun b => if b.1 == n then (n, oid) else b)
      else r.branches ++ [(n, oid)] := by
  cases h : r.branches.any (fun b => b.1 == n) with
  | true => simp [Repo.setBranch, h]
  | false => simp [Repo.setBranch, h]

/-- After `setBranch`, the branch resolves to the new target. -/
theorem findBranch_setBranch_self (r : Repo) (n : String) (oid : Nat) :
    (r.setBranch n oid).findBranch n = some oid := by
  unfold Repo.findBranch
  rw [setBranch_branches]
  cases h : r.branches.any (fun b => b.1 == n) with
  | true =>
    rw [if_pos rfl]
    exact find?_upd_map r.branches n oid h
  | false =>
    rw [if_neg (by simp)]
    exact find?_append_single r.branches n oid h

/-- `setBranch` only touches `branches`. -/
theorem setBranch_frame (r : Repo) (n : String) (oid : Nat) :
    (r.setBranch n oid).commits = r.commits ∧ (r.setBranch n oid).head = r.head ∧
    (r.setBranch n oid).index = r.index ∧ (r.setBranch n oid).workTree = r.workTree ∧
    (r.setBranch n oid).fetchHead = r.fetchHead ∧ (r.setBranch n oid).nextOid = r.nextOid := by
  cases h : r.branches.any (fun b => b.1 == n) with
  | true => simp [Repo.setBranch, h]
  | false => simp [Repo.setBranch, h]

/-- `headCommitId` reads only `branches` and `head`, so updating the index
leaves it unchanged. -/
theorem headCommitId_index_update (r : Repo) (ix : Tree) :
    ({ r with index := ix } : Repo).headCommitId = r.headCommitId := rfl

/-- `commit` is a no-op returning success when `needs_commit` is false
(src/lib.rs:478-481). -/
theorem commit_noop (specMatches : String → String → Bool) (s : CodexRepository)
    (h : s.needs_commit = false) : s.commit specMatches = (s, .ok ()) := by
  simp [CodexRepository.commit, h]

/-- `push` is a no-op returning success when `needs_push` is false
(src/lib.rs:569-572). -/
theorem push_noop (pushOk : String → Bool) (force : Bool) (s : CodexRepository)
    (h : s.needs_push = false) : s.push pushOk force = (s, .ok ()) := by
  simp [CodexRepository.push, h]

/-- The refspec `push` transmits (src/lib.rs:588-592). -/
def pushRefspec (force : Bool) : String :=
  (if force then "+" else "") ++ "refs/heads/" ++ "main" ++ ":refs/heads/" ++ "main"

theorem push_eq_needed_ok (pushOk : String → Bool) (force : Bool)
    (t : CodexRepository) (h : t.needs_push = true)
    (hpo : pushOk (pushRefspec force) = true) :
    t.push pushOk force = ({ t with needs_push := false }, .ok ()) := by
  simp only [pushRefspec] at hpo
  simp [CodexRepository.push, h, hpo]

theorem push_eq_needed_err (pushOk : String → Bool) (force : Bool)
    (t : CodexRepository) (h : t.needs_push = true)
    (hpo : pushOk (pushRefspec force) = false) :
    t.push pushOk force = (t, .error (.git "push failed")) := by
  simp only [pushRefspec] at hpo
  simp [CodexRepository.push, h, hpo]

/-- A successful `commit` leaves `needs_commit` false. -/
theorem commit_ok_needs_commit (specMatches : String → String → Bool)
    (s s1 : CodexRepository) (u : Unit)
    (hc : s.commit specMatches = (s1, .ok u)) : s1.needs_commit = false := by
  cases hnc : s.needs_commit with
  | false =>
    rw [commit_noop specMatches s hnc] at hc
    have h1 : s = s1 := congrArg Prod.fst hc
    rw [← h1]; exact hnc
  | true =>
    cases htip : s.repo.headCommitId with
    | none =>
      have h2 : (s.commit specMatches).2 = .error (.other "no commit") := by
        simp [CodexRepository.commit, hnc, headCommitId_index_update, htip]
      rw [hc] at h2
      exact Except.noConfusion h2
    | some tip =>
      have h2 : (s.commit specMatches).1.needs_commit = false := by
        simp [CodexRepository.commit, hnc, headCommitId_index_update, htip]
      rw [hc] at h2
      exact h2

/-- A successful `push` leaves `needs_push` false. -/
theorem push_ok_needs_push (pushOk : String → Bool) (force : Bool)
    (t t1 : CodexRepository) (u : Unit)
    (hp : t.push pushOk force = (t1, .ok u)) : t1.needs_push = false := by
  cases hnp : t.needs_push with
  | false =>
    rw [push_noop pushOk force t hnp] at hp
    have h1 : t = t1 := congrArg Prod.fst hp
    rw [← h1]; exact hnp
  | true =>
    cases hpo : pushOk (pushRefspec force) with
    | true =>
      rw [push_eq_needed_ok pushOk force t hnp hpo] at hp
      have h1 : ({ t with needs_push := false } : CodexRepository) = t1 :=
        congrArg Prod.fst hp
      rw [← h1]
    | false =>
      rw [push_eq_needed_err pushOk force t hnp hpo] at hp
      exact Except.noConfusion (congrArg Prod.snd hp)

/-- C6: after a successful `commit()`, a second `commit()` with no intervening
`add()` is a no-op returning success (its state is unchanged); likewise for
`push()`; and in general `commit()` is a no-op whenever `needs_commit` is
false and `push()` whenever `needs_push` is false. -/
theorem commit_push_idempotent (specMatches : String → String → Bool)
    (pushOk : String → Bool) (force : Bool) (s s1 t t1 : CodexRepository)
    (hc : s.commit specMatches = (s1, .ok ())) (hp : t.push pushOk force = (t1, .ok ())) :
    s1.commit specMatches = (s1, .ok ()) ∧ t1.push pushOk force = (t1, .ok ()) ∧
    (∀ v : CodexRepository, v.needs_commit = false → v.commit specMatches = (v, .ok ())) ∧
    (∀ v : CodexRepository, v.needs_push = false → v.push pushOk force = (v, .ok ())) :=
  ⟨commit_noop specMatches s1 (commit_ok_needs_commit specMatches s s1 () hc),
   push_noop pushOk force t1 (push_ok_needs_push pushOk force t t1 () hp),
   fun v hv => commit_noop specMatches v hv,
   fun v hv => push_noop pushOk force v hv⟩

/-- pathspec matcher oracle that matches everything: the behaviour of the
auto-add pattern "." used by the crate's tests -/
def wMatchAll : String → String → Bool := fun _ _ => true

/-- transport oracle accepting every push -/
def wPushOkAll : String → Bool := fun _ => true

/-- concrete config for witnesses -/
def wConfig : CodexRepoConfig :=
  { user := { name := "tester", email := "tester@example.com" }
    remote_url := "file:///tmp/codex-test/remote"
    auto_add := ["."]
    ssh_keys := { publicKey := "", privateKey := "" } }

/-- root commit of the concrete witness repository -/
def wRootCommit : GitCommit :=
  { parents := []
    tree := [("test.txt", "hi")]
    authorName := "tester"
    authorEmail := "tester@example.com"
    message := "root" }

/-- concrete repository: one root commit on a born main branch, one file -/
def wRepo0 : Repo :=
  { commits := [(0, wRootCommit)]
    branches := [("refs/heads/main", 0)]
    head := "refs/heads/main"
    index := [("test.txt", "hi")]
    workTree := [("test.txt", "hi")]
    fetchHead := none
    nextOid := 1 }

/-- concrete session with a pending commit -/
def wCommitSession : CodexRepository :=
  { repo := wRepo0, config := wConfig, needs_commit := true, needs_push := false,
    added := ["test.txt"] }

/-- concrete session with a pending push -/
def wPushSession : CodexRepository :=
  { repo := wRepo0, config := wConfig, needs_commit := false, needs_push := true,
    added := [] }

theorem commit_push_idempotent_witness :
    wCommitSession.commit wMatchAll = ((wCommitSession.commit wMatchAll).1, .ok ()) ∧
    wPushSession.push wPushOkAll false = ((wPushSession.push wPushOkAll false).1, .ok ()) ∧
    ((wCommitSession.commit wMatchAll).1.commit wMatchAll =
        ((wCommitSession.commit wMatchAll).1, .ok ()) ∧
      (wPushSession.push wPushOkAll false).1.push wPushOkAll false =
        ((wPushSession.push wPushOkAll false).1, .ok ()) ∧
      (∀ v : CodexRepository, v.needs_commit = false → v.commit wMatchAll = (v, .ok ())) ∧
      (∀ v : CodexRepository, v.needs_push = false → v.push wPushOkAll false = (v, .ok ()))) :=
  ⟨by decide, by decide,
   commit_push_idempotent wMatchAll wPushOkAll false
     wCommitSession ((wCommitSession.commit wMatchAll).1)
     wPushSession ((wPushSession.push wPushOkAll false).1)
     (by decide) (by decide)⟩

/-- C2 (amended): teardown calls `commit()` exactly once, then `push(false)`
exactly once provided commit succeeded (push is skipped when commit fails);
neither is attempted more than once; the final state is that of
`commit_and_push`; and any failure of the flush is surfaced by
`panic!("drop error")` — teardown ends normally exactly when
`commit_and_push` succeeded, so failures are never silently swallowed. -/
theorem teardown_flush (specMatches : String → String → Bool)
    (pushOk : String → Bool) (s : CodexRepository) :
    (s.drop specMatches pushOk).commitAttempts = 1 ∧
    (s.drop specMatches pushOk).pushAttempts ≤ 1 ∧
    ((s.drop specMatches pushOk).pushAttempts = 1 ↔
      (s.commit specMatches).2.isOk = true) ∧
    ((s.drop specMatches pushOk).outcome = DropOutcome.normal ↔
      (s.commit_and_push specMatches pushOk).2.isOk = true) ∧
    (s.drop specMatches pushOk).final = (s.commit_and_push specMatches pushOk).1 := by
  rcases hc : s.commit specMatches with ⟨s1, r1⟩
  cases r1 with
  | error e =>
    simp [CodexRepository.drop, CodexRepository.commit_and_push, hc, Except.isOk,
      Except.toBool]
  | ok u =>
    rcases hp : s1.push pushOk false with ⟨s2, r2⟩
    cases r2 with
    | error e =>
      simp [CodexRepository.drop, CodexRepository.commit_and_push, hc, hp, Except.isOk,
        Except.toBool]
    | ok v =>
      simp [CodexRepository.drop, CodexRepository.commit_and_push, hc, hp, Except.isOk,
        Except.toBool]

/-- concrete repository with an unborn main branch (e.g. a clone of an empty
remote): no commits, no branch references -/
def wUnbornRepo : Repo :=
  { commits := [], branches := [], head := "refs/heads/main", index := [],
    workTree := [("a.txt", "x")], fetchHead := none, nextOid := 0 }

/-- concrete session on the unborn repository with a pending commit -/
def wUnbornSession : CodexRepository :=
  { repo := wUnbornRepo, config := wConfig, needs_commit := true,
    needs_push := false, added := ["a.txt"] }

/-- C2 counterexample: on a concrete session whose teardown commit fails
(unborn branch), `push(false)` is attempted zero times — not "exactly once"
as the claim states for every Session — because `commit()?` short-circuits
`commit_and_push`; the failure is surfaced by `panic!("drop error")`. -/
theorem teardown_push_skipped_cex :
    (wUnbornSession.drop wMatchAll wPushOkAll).pushAttempts = 0 ∧
    (wUnbornSession.drop wMatchAll wPushOkAll).commitAttempts = 1 ∧
    (wUnbornSession.drop wMatchAll wPushOkAll).outcome =
      DropOutcome.panicked "drop error" := by
  decide

/-- C10: with `needs_commit` true but HEAD unborn (no existing commit),
`commit()` fails with the "no commit" error from `our_commit`
(src/lib.rs:543-546) without creating any commit or moving any branch, and
the dirty flags are unchanged: `needs_commit` stays true, `needs_push`
stays false. -/
theorem commit_unborn_error (specMatches : String → String → Bool)
    (s : CodexRepository) (h1 : s.needs_commit = true)
    (h2 : s.repo.headCommitId = none) (h3 : s.needs_push = false) :
    (s.commit specMatches).2 = .error (.other "no commit") ∧
    (s.commit specMatches).1.needs_commit = true ∧
    (s.commit specMatches).1.needs_push = false ∧
    (s.commit specMatches).1.repo.commits = s.repo.commits ∧
    (s.commit specMatches).1.repo.branches = s.repo.branches := by
  refine ⟨?_, ?_, ?_, ?_, ?_⟩ <;>
    simp [CodexRepository.commit, h1, h3, headCommitId_index_update, h2]

theorem commit_unborn_error_witness :
    wUnbornSession.needs_commit = true ∧ wUnbornSession.repo.headCommitId = none ∧
    wUnbornSession.needs_push = false ∧
    ((wUnbornSession.commit wMatchAll).2 = .error (.other "no commit") ∧
     (wUnbornSession.commit wMatchAll).1.needs_commit = true ∧
     (wUnbornSession.commit wMatchAll).1.needs_push = false ∧
     (wUnbornSession.commit wMatchAll).1.repo.commits = wUnbornSession.repo.commits ∧
     (wUnbornSession.commit wMatchAll).1.repo.branches = wUnbornSession.repo.branches) :=
  ⟨rfl, by decide, rfl,
   commit_unborn_error wMatchAll wUnbornSession rfl (by decide) rfl⟩

/-- C8 (amended): `add(p)` (when `p` exists in the worktree) sets
`needs_commit` and stages `p` idempotently — a second `add(p)` leaves the
repository state (index included) unchanged — but it appends `p` to the
recorded path list on every call, so after two calls `p` is recorded twice
for commit-message composition, not once. -/
theorem add_records_each_call (s : CodexRepository) (p : String)
    (entry : String × String)
    (h : s.repo.workTree.find? (fun e => e.1 == p) = some entry) :
    (s.add p).2 = .ok () ∧
    (s.add p).1.needs_commit = true ∧
    (s.add p).1.added = s.added ++ [p] ∧
    ((s.add p).1.add p).1.added = s.added ++ [p, p] ∧
    ((s.add p).1.add p).1.repo = (s.add p).1.repo ∧
    ((s.add p).1.add p).1.needs_commit = true := by
  refine ⟨?_, ?_, ?_, ?_, ?_, ?_⟩ <;> simp [CodexRepository.add, h, upsert_idem]

/-- concrete session for the C8 results: clean state, one worktree file -/
def wAddSession : CodexRepository :=
  { repo := wRepo0, config := wConfig, needs_commit := false, needs_push := false,
    added := [] }

theorem add_records_each_call_witness :
    wAddSession.repo.workTree.find? (fun e => e.1 == "test.txt") =
      some ("test.txt", "hi") ∧
    ((wAddSession.add "test.txt").2 = .ok () ∧
     (wAddSession.add "test.txt").1.needs_commit = true ∧
     (wAddSession.add "test.txt").1.added = wAddSession.added ++ ["test.txt"] ∧
     ((wAddSession.add "test.txt").1.add "test.txt").1.added =
       wAddSession.added ++ ["test.txt", "test.txt"] ∧
     ((wAddSession.add "test.txt").1.add "test.txt").1.repo =
       (wAddSession.add "test.txt").1.repo ∧
     ((wAddSession.add "test.txt").1.add "test.txt").1.needs_commit = true) :=
  ⟨by decide,
   add_records_each_call wAddSession "test.txt" ("test.txt", "hi") (by decide)⟩

/-- C8 counterexample: calling `add` twice with the same path does not leave
the Session in the same state as calling it once — the recorded path list
(`added`, src/lib.rs:564) grows on each call, so the path is recorded twice,
not once, for commit-message composition. -/
theorem add_twice_differs_cex :
    ((wAddSession.add "test.txt").1.add "test.txt").1 ≠
      (wAddSession.add "test.txt").1 ∧
    ((wAddSession.add "test.txt").1.add "test.txt").1.added =
      ["test.txt", "test.txt"] ∧
    (wAddSession.add "test.txt").1.added = ["test.txt"] := by
  decide

/-- The worktree entries `Index::add_all` stages during `commit`
(src/lib.rs:486-498): those matched by some `auto_add` pattern under the
collaborator's pathspec matcher. -/
def commitMatched (specMatches : String → String → Bool) (s : CodexRepository) :
    List (String × String) :=
  s.repo.workTree.filter
    (fun e => s.config.auto_add.any (fun spec => specMatches spec e.1))

/-- The index after `commit` staged the auto-add matches on top of the
already-staged entries. -/
def commitIndex (specMatches : String → String → Bool) (s : CodexRepository) : Tree :=
  stageAll s.repo.index (commitMatched specMatches s)

/-- The synthesized commit message (src/lib.rs:504-512): built from the
auto-add matched paths (in Rust `{:?}` form) and the `added` list. -/
def commitMsg (specMatches : String → String → Bool) (s : CodexRepository) : String :=
  "commit changes "
    ++ String.intercalate " " ((commitMatched specMatches s).map (fun e => rustDebugPath e.1))
    ++ " " ++ String.intercalate " " s.added

theorem createCommit_fst (r : Repo) (author : User) (message : String)
    (tree : Tree) (parents : List Nat) :
    (r.createCommit true author message tree parents).1 =
      ({ r with
          commits := r.commits ++ [(r.nextOid,
            { parents := parents
              tree := tree
              authorName := author.name
              authorEmail := author.email
              message := message })]
          nextOid := r.nextOid + 1 } : Repo).setBranch r.head r.nextOid := by
  simp [Repo.createCommit]

theorem createCommit_commits (r : Repo) (author : User) (message : String)
    (tree : Tree) (parents : List Nat) :
    (r.createCommit true author message tree parents).1.commits =
      r.commits ++ [(r.nextOid,
        { parents := parents
          tree := tree
          authorName := author.name
          authorEmail := author.email
          message := message })] := by
  rw [createCommit_fst]
  exact (setBranch_frame _ _ _).1

theorem createCommit_head (r : Repo) (author : User) (message : String)
    (tree : Tree) (parents : List Nat) :
    (r.createCommit true author message tree parents).1.head = r.head := by
  rw [createCommit_fst]
  exact (setBranch_frame _ _ _).2.1

theorem createCommit_index (r : Repo) (author : User) (message : String)
    (tree : Tree) (parents : List Nat) :
    (r.createCommit true author message tree parents).1.index = r.index := by
  rw [createCommit_fst]
  exact (setBranch_frame _ _ _).2.2.1

/-- After `createCommit` with `update_ref = Some("HEAD")`, HEAD resolves to
the new commit: the branch pointer advanced. -/
theorem createCommit_headCommitId (r : Repo) (author : User) (message : String)
    (tree : Tree) (parents : List Nat) :
    (r.createCommit true author message tree parents).1.headCommitId =
      some r.nextOid := by
  rw [createCommit_fst]
  unfold Repo.headCommitId
  rw [(setBranch_frame _ _ _).2.1]
  exact findBranch_setBranch_self _ r.head r.nextOid

/-- Reduction of `commit` on a session that needs a commit and whose HEAD is
born: the success branch of src/lib.rs:477-519. -/
theorem commit_eq_born (specMatches : String → String → Bool)
    (s : CodexRepository) (tip : Nat)
    (h1 : s.needs_commit = true) (h2 : s.repo.headCommitId = some tip) :
    s.commit specMatches =
      ({ s with
          repo := (({ s.repo with index := commitIndex specMatches s } : Repo).createCommit
            true s.config.user (commitMsg specMatches s)
            (commitIndex specMatches s) [tip]).1
          added := []
          needs_commit := false
          needs_push := true }, .ok ()) := by
  simp [CodexRepository.commit, h1, headCommitId_index_update, h2,
    commitMatched, commitIndex, commitMsg]

/-- C5: on a session with `needs_commit` true (and a born HEAD at `tip`),
a successful `commit()` stages all auto-add matched worktree entries on top
of the previously staged (explicitly added) paths — the resulting index
contains every auto-add match and retains every previously staged path —
writes that index as the tree snapshot, creates a commit whose only parent
is the current branch tip, authored by the configured user identity, with
the message synthesized from the staged path list, advances the branch
pointer to the new commit, clears `needs_commit`, sets `needs_push`, and
resets the recorded path list. -/
theorem commit_success_behaviour (specMatches : String → String → Bool)
    (s : CodexRepository) (tip : Nat)
    (h1 : s.needs_commit = true) (h2 : s.repo.headCommitId = some tip) :
    (s.commit specMatches).2 = .ok () ∧
    (s.commit specMatches).1.repo.index = commitIndex specMatches s ∧
    (∀ e ∈ commitMatched specMatches s,
      e.1 ∈ (commitIndex specMatches s).map Prod.fst) ∧
    (∀ q ∈ s.repo.index.map Prod.fst,
      q ∈ (commitIndex specMatches s).map Prod.fst) ∧
    (s.commit specMatches).1.repo.commits = s.repo.commits ++
      [(s.repo.nextOid,
        { parents := [tip]
          tree := commitIndex specMatches s
          authorName := s.config.user.name
          authorEmail := s.config.user.email
          message := commitMsg specMatches s })] ∧
    (s.commit specMatches).1.repo.headCommitId = some s.repo.nextOid ∧
    (s.commit specMatches).1.repo.head = s.repo.head ∧
    (s.commit specMatches).1.needs_commit = false ∧
    (s.commit specMatches).1.needs_push = true ∧
    (s.commit specMatches).1.added = [] := by
  rw [commit_eq_born specMatches s tip h1 h2]
  refine ⟨rfl, ?_, ?_, ?_, ?_, ?_, ?_, rfl, rfl, rfl⟩
  · exact createCommit_index _ _ _ _ _
  · intro e he
    simpa [commitIndex] using
      keys_stageAll_of_mem (commitMatched specMatches s) s.repo.index e he
  · intro q hq
    simpa [commitIndex] using
      keys_stageAll_super (commitMatched specMatches s) s.repo.index q hq
  · exact createCommit_commits _ _ _ _ _
  · exact createCommit_headCommitId _ _ _ _ _
  · exact createCommit_head _ _ _ _ _

theorem commit_success_behaviour_witness :
    wCommitSession.needs_commit = true ∧
    wCommitSession.repo.headCommitId = some 0 ∧
    ((wCommitSession.commit wMatchAll).2 = .ok () ∧
     (wCommitSession.commit wMatchAll).1.repo.index = commitIndex wMatchAll wCommitSession ∧
     (∀ e ∈ commitMatched wMatchAll wCommitSession,
       e.1 ∈ (commitIndex wMatchAll wCommitSession).map Prod.fst) ∧
     (∀ q ∈ wCommitSession.repo.index.map Prod.fst,
       q ∈ (commitIndex wMatchAll wCommitSession).map Prod.fst) ∧
     (wCommitSession.commit wMatchAll).1.repo.commits = wCommitSession.repo.commits ++
       [(wCommitSession.repo.nextOid,
         { parents := [0]
           tree := commitIndex wMatchAll wCommitSession
           authorName := wCommitSession.config.user.name
           authorEmail := wCommitSession.config.user.email
           message := commitMsg wMatchAll wCommitSession })] ∧
     (wCommitSession.commit wMatchAll).1.repo.headCommitId =
       some wCommitSession.repo.nextOid ∧
     (wCommitSession.commit wMatchAll).1.repo.head = wCommitSession.repo.head ∧
     (wCommitSession.commit wMatchAll).1.needs_commit = false ∧
     (wCommitSession.commit wMatchAll).1.needs_push = true ∧
     (wCommitSession.commit wMatchAll).1.added = []) :=
  ⟨rfl, by decide,
   commit_success_behaviour wMatchAll wCommitSession 0 rfl (by decide)⟩

/-! ## Fetch and Merge Engine (src/pull.rs)

`do_fetch`/`do_merge` are the crate's copies of the git2 pull example. The
collaborator primitives — the transport (`Remote::fetch`), the merge
analysis (`Repository::merge_analysis`), the merge base
(`Repository::merge_base`) and the three-way tree merge
(`Repository::merge_trees`) — enter as oracle parameters; the control flow
and local state updates around them are translated from the source. -/

/-- An annotated/fetched commit reference: a handle to a commit id. -/
structure AnnotatedCommit where
  id : Nat
  deriving Repr, DecidableEq

/-- Transport oracle for one fetch: `respond refs` is the remote's answer
(the oid of the fetched branch tip, or a transport error), `newObjects` the
downloaded commit objects. -/
structure FetchOracle where
  respond : List String → Except String Nat
  newObjects : List (Nat × GitCommit)

/-- The two `merge_analysis` flags the source inspects
(src/pull.rs:170,198). -/
structure MergeAnalysisFlags where
  isFastForward : Bool
  isNormal : Bool
  deriving Repr, DecidableEq

/-- The index produced by `merge_trees`: merged entries plus the paths that
carry conflict entries. -/
structure MergeIndex where
  entries : Tree
  conflictPaths : List String
  deriving Repr, DecidableEq

/-- `Index::has_conflicts`. -/
def MergeIndex.hasConflicts (ix : MergeIndex) : Bool := !ix.conflictPaths.isEmpty

/-- `do_fetch` (src/pull.rs:26-89): perform the network fetch (downloading
objects and updating FETCH_HEAD to the fetched branch tip), then resolve
the FETCH_HEAD reference to an annotated commit and return it. The working
tree, the index, HEAD and every branch reference are untouched. -/
def do_fetch (repo : Repo) (refs : List String) (orc : FetchOracle) :
    Repo × CResult AnnotatedCommit :=
  match orc.respond refs with
  | .error e => (repo, .error (.git e))
  | .ok tip =>
    let repo1 := { repo with
      commits := repo.commits ++ orc.newObjects
      fetchHead := some tip }
    match repo1.fetchHead with
    | none => (repo1, .error (.git "FETCH_HEAD not found"))
    | some t => (repo1, .ok { id := t })

/-- `fast_forward` (src/pull.rs:92-114): move the local branch reference to
the fetched commit, set HEAD to it, and force-checkout the working tree. -/
def fast_forward (repo : Repo) (refname : String) (rc : AnnotatedCommit) :
    Repo × NullResult :=
  let repo1 := repo.setBranch refname rc.id
  let repo2 := { repo1 with head := refname }
  repo2.checkout_head

/-- `normal_merge` (src/pull.rs:118-157): three-way merge of diverged
histories. `mergeBase` and `mergeTrees` are the collaborator primitives
(`none` from `mergeBase` models the `merge_base` error on unrelated
histories); `sigUser` models `repo.signature()`. On conflicts the merged
index is checked out into the working tree and the function returns plain
success; otherwise a merge commit with both parents is created on HEAD and
the working tree reset to it. -/
def normal_merge (mergeBase : Nat → Nat → Option Nat)
    (mergeTrees : Tree → Tree → Tree → MergeIndex) (sigUser : User)
    (repo : Repo) (localC remoteC : AnnotatedCommit) : Repo × NullResult :=
  match repo.findCommit localC.id with
  | none => (repo, .error (.git "missing commit"))
  | some lc =>
    match repo.findCommit remoteC.id with
    | none => (repo, .error (.git "missing commit"))
    | some rc =>
      match mergeBase localC.id remoteC.id with
      | none => (repo, .error (.git "no merge base"))
      | some ancId =>
        match repo.findCommit ancId with
        | none => (repo, .error (.git "missing commit"))
        | some anc =>
          let idx := mergeTrees anc.tree lc.tree rc.tree
          if idx.hasConflicts then
            -- src/pull.rs:131-135: checkout the conflicted index into the
            -- working tree and return Ok(()); no branch moves, no commit.
            ({ repo with workTree := idx.entries }, .ok ())
          else
            let result_tree := idx.entries
            let msg := "Merge: " ++ toString remoteC.id ++ " into " ++ toString localC.id
            let repo1 := (repo.createCommit true sigUser msg result_tree
              [localC.id, remoteC.id]).1
            repo1.checkout_head

/-- `do_merge` (src/pull.rs:160-206): run the merge analysis and apply the
appropriate integration. Fast-forward wins over normal merge (the source
tests `is_fast_forward` first); when the local branch does not exist the
reference is created at the fetched commit and checked out; when neither
flag is set ("Nothing to do") the call returns success unchanged. -/
def do_merge (analysis : MergeAnalysisFlags) (mergeBase : Nat → Nat → Option Nat)
    (mergeTrees : Tree → Tree → Tree → MergeIndex) (sigUser : User)
    (repo : Repo) (remote_branch : String) (fetch_commit : AnnotatedCommit) :
    Repo × NullResult :=
  if analysis.isFastForward then
    let refname := "refs/heads/" ++ remote_branch
    match repo.findBranch refname with
    | some _ => fast_forward repo refname fetch_commit
    | none =>
      let repo1 := repo.setBranch refname fetch_commit.id
      let repo2 := { repo1 with head := refname }
      repo2.checkout_head
  else if analysis.isNormal then
    match repo.headCommitId with
    | none => (repo, .error (.git "unborn HEAD"))
    | some headId =>
      normal_merge mergeBase mergeTrees sigUser repo { id := headId } fetch_commit
  else
    (repo, .ok ())

/-- `CodexRepository::fetch` (src/lib.rs:421-434): `do_fetch` on
`origin`/"main", then `do_merge`; returns `Ok(())` on success. The session
dirty flags are never touched. -/
def CodexRepository.fetch (orc : FetchOracle) (analysis : MergeAnalysisFlags)
    (mergeBase : Nat → Nat → Option Nat)
    (mergeTrees : Tree → Tree → Tree → MergeIndex) (sigUser : User)
    (s : CodexRepository) : CodexRepository × NullResult :=
  match do_fetch s.repo ["main"] orc with
  | (repo1, .error e) => ({ s with repo := repo1 }, .error e)
  | (repo1, .ok fetch_commit) =>
    match do_merge analysis mergeBase mergeTrees sigUser repo1 "main" fetch_commit with
    | (repo2, r) => ({ s with repo := repo2 }, r)

/-- C9: a successful `do_fetch` stores the downloaded objects, updates only
the FETCH_HEAD pointer among the repository's references, and returns the
fetched commit reference; the working tree, the index, HEAD and the tracked
branch pointers are all unchanged. -/
theorem fetch_updates_only_fetch_head (repo : Repo) (refs : List String)
    (orc : FetchOracle) (tip : Nat) (h : orc.respond refs = .ok tip) :
    do_fetch repo refs orc =
      ({ repo with
          commits := repo.commits ++ orc.newObjects
          fetchHead := some tip }, .ok { id := tip }) ∧
    (do_fetch repo refs orc).1.workTree = repo.workTree ∧
    (do_fetch repo refs orc).1.branches = repo.branches ∧
    (do_fetch repo refs orc).1.head = repo.head ∧
    (do_fetch repo refs orc).1.index = repo.index ∧
    (do_fetch repo refs orc).1.fetchHead = some tip ∧
    (do_fetch repo refs orc).2 = .ok { id := tip } := by
  have h1 : do_fetch repo refs orc =
      ({ repo with
          commits := repo.commits ++ orc.newObjects
          fetchHead := some tip }, .ok { id := tip }) := by
    simp [do_fetch, h]
  refine ⟨h1, ?_, ?_, ?_, ?_, ?_, ?_⟩ <;> rw [h1]

/-- commit fetched from the remote in the C9 witness -/
def wTheirCommit : GitCommit :=
  { parents := [0]
    tree := [("test.txt", "their")]
    authorName := "tester"
    authorEmail := "tester@example.com"
    message := "their" }

/-- transport oracle for the C9 witness -/
def wFetchOracle : FetchOracle :=
  { respond := fun _ => .ok 2, newObjects := [(2, wTheirCommit)] }

theorem fetch_updates_only_fetch_head_witness :
    wFetchOracle.respond ["main"] = .ok 2 ∧
    (do_fetch wRepo0 ["main"] wFetchOracle =
      ({ wRepo0 with
          commits := wRepo0.commits ++ wFetchOracle.newObjects
          fetchHead := some 2 }, .ok { id := 2 }) ∧
     (do_fetch wRepo0 ["main"] wFetchOracle).1.workTree = wRepo0.workTree ∧
     (do_fetch wRepo0 ["main"] wFetchOracle).1.branches = wRepo0.branches ∧
     (do_fetch wRepo0 ["main"] wFetchOracle).1.head = wRepo0.head ∧
     (do_fetch wRepo0 ["main"] wFetchOracle).1.index = wRepo0.index ∧
     (do_fetch wRepo0 ["main"] wFetchOracle).1.fetchHead = some 2 ∧
     (do_fetch wRepo0 ["main"] wFetchOracle).2 = .ok { id := 2 }) :=
  ⟨rfl, fetch_updates_only_fetch_head wRepo0 ["main"] wFetchOracle 2 rfl⟩

/-- C3 (amended): when the three-way merge index of a diverged normal merge
reports conflicts, `do_merge` checks the conflicted index out into the
working tree, leaves every branch pointer (and HEAD, and the commit store)
unmoved, and returns plain success `Ok(())`: no outcome record — no changed
flag, no conflicted flag, no conflict-path set — is returned to the caller. -/
theorem conflicted_merge_behaviour (mergeBase : Nat → Nat → Option Nat)
    (mergeTrees : Tree → Tree → Tree → MergeIndex) (sigUser : User)
    (repo : Repo) (remote_branch : String) (fc : AnnotatedCommit)
    (headId ancId : Nat) (lc rc anc : GitCommit)
    (h1 : repo.headCommitId = some headId)
    (h2 : repo.findCommit headId = some lc)
    (h3 : repo.findCommit fc.id = some rc)
    (h4 : mergeBase headId fc.id = some ancId)
    (h5 : repo.findCommit ancId = some anc)
    (h6 : (mergeTrees anc.tree lc.tree rc.tree).hasConflicts = true) :
    do_merge { isFastForward := false, isNormal := true }
        mergeBase mergeTrees sigUser repo remote_branch fc =
      ({ repo with workTree := (mergeTrees anc.tree lc.tree rc.tree).entries },
        .ok ()) ∧
    (do_merge { isFastForward := false, isNormal := true }
        mergeBase mergeTrees sigUser repo remote_branch fc).1.branches = repo.branches ∧
    (do_merge { isFastForward := false, isNormal := true }
        mergeBase mergeTrees sigUser repo remote_branch fc).1.head = repo.head ∧
    (do_merge { isFastForward := false, isNormal := true }
        mergeBase mergeTrees sigUser repo remote_branch fc).1.commits = repo.commits := by
  have hm : do_merge { isFastForward := false, isNormal := true }
      mergeBase mergeTrees sigUser repo remote_branch fc =
      ({ repo with workTree := (mergeTrees anc.tree lc.tree rc.tree).entries },
        .ok ()) := by
    simp [do_merge, normal_merge, h1, h2, h3, h4, h5, h6]
  refine ⟨hm, ?_, ?_, ?_⟩ <;> rw [hm]

/-! Concrete diverged-history scenario: commit 0 is the common base, commit 1
the local tip of main, commit 2 the fetched remote tip. -/

/-- common base commit -/
def wC0 : GitCommit :=
  { parents := []
    tree := [("a.txt", "base")]
    authorName := "tester"
    authorEmail := "tester@example.com"
    message := "c0" }

/-- local commit on top of the base -/
def wC1 : GitCommit :=
  { parents := [0]
    tree := [("a.txt", "local")]
    authorName := "tester"
    authorEmail := "tester@example.com"
    message := "c1" }

/-- remote commit on top of the base, touching the same file -/
def wC2 : GitCommit :=
  { parents := [0]
    tree := [("a.txt", "remote")]
    authorName := "tester"
    authorEmail := "tester@example.com"
    message := "c2" }

/-- local repository whose main has diverged from the remote -/
def wDivergedRepo : Repo :=
  { commits := [(0, wC0), (1, wC1)]
    branches := [("refs/heads/main", 1)]
    head := "refs/heads/main"
    index := [("a.txt", "local")]
    workTree := [("a.txt", "local")]
    fetchHead := none
    nextOid := 3 }

/-- clean session over the diverged repository -/
def wDivergedSession : CodexRepository :=
  { repo := wDivergedRepo, config := wConfig, needs_commit := false,
    needs_push := false, added := [] }

/-- transport oracle delivering the remote commit 2 -/
def wFetchOracle2 : FetchOracle :=
  { respond := fun _ => .ok 2, newObjects := [(2, wC2)] }

/-- merge analysis of diverged histories: normal merge -/
def wAnalysisNormal : MergeAnalysisFlags := { isFastForward := false, isNormal := true }

/-- merge analysis when there is nothing to do (up to date) -/
def wAnalysisNone : MergeAnalysisFlags := { isFastForward := false, isNormal := false }

/-- merge-base oracle: commit 0 is the common ancestor -/
def wMergeBase0 : Nat → Nat → Option Nat := fun _ _ => some 0

/-- three-way merge oracle producing a clean (conflict-free) merged index -/
def wMergeTreesOk : Tree → Tree → Tree → MergeIndex :=
  fun _ _ _ => { entries := [("a.txt", "merged")], conflictPaths := [] }

/-- three-way merge oracle producing a conflicted index on `a.txt` -/
def wMergeTreesConf : Tree → Tree → Tree → MergeIndex :=
  fun _ _ _ => { entries := [("a.txt", "<<<conflict>>>")], conflictPaths := ["a.txt"] }

/-- signature oracle (`repo.signature()`) -/
def wSig : User := { name := "tester", email := "tester@example.com" }

/-- the diverged repository after `do_fetch` stored the remote commit -/
def wDivergedRepoFetched : Repo :=
  { wDivergedRepo with
      commits := wDivergedRepo.commits ++ [(2, wC2)]
      fetchHead := some 2 }

theorem conflicted_merge_behaviour_witness :
    wDivergedRepoFetched.headCommitId = some 1 ∧
    wDivergedRepoFetched.findCommit 1 = some wC1 ∧
    wDivergedRepoFetched.findCommit 2 = some wC2 ∧
    wMergeBase0 1 2 = some 0 ∧
    wDivergedRepoFetched.findCommit 0 = some wC0 ∧
    (wMergeTreesConf wC0.tree wC1.tree wC2.tree).hasConflicts = true ∧
    (do_merge { isFastForward := false, isNormal := true }
        wMergeBase0 wMergeTreesConf wSig wDivergedRepoFetched "main" { id := 2 } =
      ({ wDivergedRepoFetched with
          workTree := (wMergeTreesConf wC0.tree wC1.tree wC2.tree).entries },
        .ok ()) ∧
     (do_merge { isFastForward := false, isNormal := true }
        wMergeBase0 wMergeTreesConf wSig wDivergedRepoFetched "main"
        { id := 2 }).1.branches = wDivergedRepoFetched.branches ∧
     (do_merge { isFastForward := false, isNormal := true }
        wMergeBase0 wMergeTreesConf wSig wDivergedRepoFetched "main"
        { id := 2 }).1.head = wDivergedRepoFetched.head ∧
     (do_merge { isFastForward := false, isNormal := true }
        wMergeBase0 wMergeTreesConf wSig wDivergedRepoFetched "main"
        { id := 2 }).1.commits = wDivergedRepoFetched.commits) := by
  have hm : wDivergedRepoFetched.findCommit 2 = some wC2 := by decide
  exact ⟨by decide, by decide, hm, rfl, by decide, by decide,
    conflicted_merge_behaviour wMergeBase0 wMergeTreesConf wSig wDivergedRepoFetched
      "main" { id := 2 } 1 0 wC1 wC2 wC0 (by decide) (by decide) hm rfl
      (by decide) (by decide)⟩

/-- C3 counterexample: in a concrete diverged fetch-and-integrate cycle
whose three-way merge index is conflicted on "a.txt", the value returned to
the caller is `Ok(())` — identical to the value returned by a cycle with
nothing to integrate at all. `fetch`/`do_merge` return `Result<()>`
(src/lib.rs:421-434, src/pull.rs:131-134): no `{changed:true,
conflicted:true, conflict_paths}` outcome is carried to the caller, so the
claimed outcome record does not exist. -/
theorem conflict_not_returned_cex :
    (wDivergedSession.fetch wFetchOracle2 wAnalysisNormal wMergeBase0
        wMergeTreesConf wSig).2 = .ok () ∧
    (wDivergedSession.fetch wFetchOracle2 wAnalysisNone wMergeBase0
        wMergeTreesConf wSig).2 = .ok () ∧
    (wDivergedSession.fetch wFetchOracle2 wAnalysisNormal wMergeBase0
        wMergeTreesConf wSig).2 =
      (wDivergedSession.fetch wFetchOracle2 wAnalysisNone wMergeBase0
        wMergeTreesConf wSig).2 ∧
    (wMergeTreesConf wC0.tree wC1.tree wC2.tree).hasConflicts = true := by
  decide

/-- C4 (amended): `fetch` (fetch-and-integrate) never alters `needs_commit`,
`needs_push`, the recorded path list or the config — in every case, fast
forward, conflicted or clean normal merge included; in particular an
auto-merge commit does not set `needs_push`. -/
theorem fetch_preserves_dirty_flags (orc : FetchOracle)
    (analysis : MergeAnalysisFlags) (mergeBase : Nat → Nat → Option Nat)
    (mergeTrees : Tree → Tree → Tree → MergeIndex) (sigUser : User)
    (s : CodexRepository) :
    (s.fetch orc analysis mergeBase mergeTrees sigUser).1.needs_commit = s.needs_commit ∧
    (s.fetch orc analysis mergeBase mergeTrees sigUser).1.needs_push = s.needs_push ∧
    (s.fetch orc analysis mergeBase mergeTrees sigUser).1.added = s.added ∧
    (s.fetch orc analysis mergeBase mergeTrees sigUser).1.config = s.config := by
  rcases hf : do_fetch s.repo ["main"] orc with ⟨repo1, r1⟩
  cases r1 with
  | error e => simp [CodexRepository.fetch, hf]
  | ok fc =>
    rcases hm : do_merge analysis mergeBase mergeTrees sigUser repo1 "main" fc
      with ⟨repo2, r2⟩
    simp [CodexRepository.fetch, hf, hm]

/-- C4 counterexample: a concrete clean (non-conflicting) normal merge of
diverged histories creates the auto-merge commit — commit 3, with both tips
as parents and the signature identity as author — yet `needs_push` remains
false afterwards, where the claim says it becomes true. The merge commit is
therefore never transmitted by a subsequent `push()`, which is a no-op while
`needs_push` is false. -/
theorem merge_commit_no_needs_push_cex :
    (wDivergedSession.fetch wFetchOracle2 wAnalysisNormal wMergeBase0
        wMergeTreesOk wSig).1.needs_push = false ∧
    (wDivergedSession.fetch wFetchOracle2 wAnalysisNormal wMergeBase0
        wMergeTreesOk wSig).2 = .ok () ∧
    (wDivergedSession.fetch wFetchOracle2 wAnalysisNormal wMergeBase0
        wMergeTreesOk wSig).1.repo.findCommit 3 =
      some { parents := [1, 2]
             tree := [("a.txt", "merged")]
             authorName := "tester"
             authorEmail := "tester@example.com"
             message := "Merge: 2 into 1" } ∧
    (wDivergedSession.fetch wFetchOracle2 wAnalysisNormal wMergeBase0
        wMergeTreesOk wSig).1.repo.headCommitId = some 3 := by
  decide

end CodexGit
